import Mathlib

/-!
Verification of the htp (human time parser) core against its specification.

The development shallowly embeds the Rust sources:
* `parser.rs`   — the `TimeClue` data model, token-slice matching
  (`parse_time_hms`, `parse_time_clue`) and category-token conversions;
* `interpreter.rs` (chrono feature) — `check_hms` and `evaluate_time_clue`;
* `lib.rs`      — the public entry points `parse` and `parse_time_clue`.

Timestamps: the public pipeline normalises every reference instant to UTC
(`unified.rs` converts any zone to `chrono::Utc`), so an instant is embedded
as an `Int` counting seconds since 1970-01-01T00:00:00 UTC.  A calendar date
is an `Int` counting days since that epoch (chrono's `date()` floors the
instant to its UTC day).  1970-01-01 was a Thursday, whose zero-based index
from Monday is 3.  Machine integers (`u32`, `usize`, `i32`) are embedded as
`Nat`/`Int`; the arithmetic performed by the code (`h + 12`, `30 * n`) is
embedded as exact arithmetic, matching Rust's checked (panic-on-overflow)
semantics in which a wrapped value is never produced.
-/

namespace Htp

namespace Parser

/-- `parser.rs`: `pub enum AMPM { AM, PM }`. -/
inductive AMPM
  | AM
  | PM
deriving DecidableEq, Repr

/-- `unified.rs`: `pub enum Weekday { Monday, ..., Sunday }`. -/
inductive Weekday
  | Monday
  | Tuesday
  | Wednesday
  | Thursday
  | Friday
  | Saturday
  | Sunday
deriving DecidableEq, Repr

/-- `unified.rs`: `num_days_from_monday` is the discriminant (`self as _`),
zero-based from Monday; identical to chrono's `num_days_from_monday`. -/
def Weekday.num_days_from_monday : Weekday → Nat
  | .Monday => 0
  | .Tuesday => 1
  | .Wednesday => 2
  | .Thursday => 3
  | .Friday => 4
  | .Saturday => 5
  | .Sunday => 6

/-- `parser.rs`: `pub enum ShortcutDay { Today, Yesterday, Tomorrow }`. -/
inductive ShortcutDay
  | Today
  | Yesterday
  | Tomorrow
deriving DecidableEq, Repr

/-- `parser.rs`: `pub enum Modifier { Last, Next }`. -/
inductive Modifier
  | Last
  | Next
deriving DecidableEq, Repr

/-- `parser.rs`: `pub enum Quantifier { Min, Hours, Days, Weeks, Months }`. -/
inductive Quantifier
  | Min
  | Hours
  | Days
  | Weeks
  | Months
deriving DecidableEq, Repr

/-- `parser.rs`: `pub type HMS = (u32, u32, u32);` (`u32` embedded as `Nat`). -/
abbrev HMS := Nat × Nat × Nat

/-- `parser.rs`: `pub type YMD = (i32, u32, u32);`. -/
abbrev YMD := Int × Nat × Nat

/-- `parser.rs`: `pub enum TimeClue`. -/
inductive TimeClue
  | Now
  | Time (hms : HMS) (am_or_pm : Option AMPM)
  | Relative (n : Nat) (q : Quantifier)
  | RelativeDayAt (m : Modifier) (w : Weekday) (hms : Option HMS) (am_or_pm : Option AMPM)
  | RelativeFuture (n : Nat) (q : Quantifier)
  | SameWeekDayAt (w : Weekday) (hms : Option HMS) (am_or_pm : Option AMPM)
  | ShortcutDayAt (d : ShortcutDay) (hms : Option HMS) (am_or_pm : Option AMPM)
  | ISO (ymd : YMD) (hms : HMS)
deriving DecidableEq, Repr

/-- `parser.rs`: `pub enum ParseError`.  The payloads of `ParseInt` and
`PestError` (a `std` error and a pest error) carry no information the spec
depends on and are embedded as bare constructors. -/
inductive ParseError
  | ParseInt
  | PestError
  | UnexpectedNonMatchingPattern
  | UnknownWeekday (s : String)
  | UnknownShortcutDay (s : String)
  | UnknownModifier (s : String)
  | UnknownQuantifier (s : String)
  | UnknownAMPM (s : String)
deriving DecidableEq, Repr

/-- `parser.rs`: the pest `Rule` kinds that `parse_time_clue` matches on. -/
inductive Rule
  | time_clue
  | now
  | time
  | hms
  | am_or_pm
  | relative
  | relative_future
  | int
  | quantifier
  | day_at
  | mday
  | modifier
  | weekday
  | shortcut_day
  | iso
  | year
  | month
  | day
  | date
  | EOI
deriving DecidableEq, Repr

end Parser

namespace Parser

/-- Numeric value of a pest-matched digit string.  The pest grammar's
numeric tokens (`hms`, `int`, `year`, `month`, `day`) are digit sequences,
so Rust's `str::parse::<uN>` on them succeeds exactly when the value fits
the target type. -/
def digitsToNat (s : String) : Option Nat :=
  if s.data.length ≠ 0 ∧ s.data.all Char.isDigit then
    some (s.data.foldl (fun a c => a * 10 + (c.toNat - 48)) 0)
  else
    none

/-- `h.parse::<u32>()?` on a pest digit token: succeeds iff the digits
denote a value below `2^32`. -/
def parseU32 (s : String) : Except ParseError Nat :=
  match digitsToNat s with
  | some n => if n < 2 ^ 32 then .ok n else .error .ParseInt
  | none => .error .ParseInt

/-- `s.parse::<usize>()?` on a pest digit token (64-bit target). -/
def parseUsize (s : String) : Except ParseError Nat :=
  match digitsToNat s with
  | some n => if n < 2 ^ 64 then .ok n else .error .ParseInt
  | none => .error .ParseInt

/-- `y.parse::<i32>()?` on a pest digit token (the grammar's `year` token is
unsigned, so only the non-negative range occurs). -/
def parseI32 (s : String) : Except ParseError Int :=
  match digitsToNat s with
  | some n => if n < 2 ^ 31 then .ok (n : Int) else .error .ParseInt
  | none => .error .ParseInt

/-- `parser.rs`: `fn weekday_from(s)` (chrono feature, weekday names unified). -/
def weekday_from (s : String) : Except ParseError Weekday :=
  match s with
  | "monday" | "mon" => .ok .Monday
  | "tuesday" | "tue" => .ok .Tuesday
  | "wednesday" | "wed" => .ok .Wednesday
  | "thursday" | "thu" => .ok .Thursday
  | "friday" | "fri" => .ok .Friday
  | "saturday" | "sat" => .ok .Saturday
  | "sunday" | "sun" => .ok .Sunday
  | _ => .error (.UnknownWeekday s)

/-- `parser.rs`: `fn am_or_pm_from(s)`. -/
def am_or_pm_from (s : String) : Except ParseError AMPM :=
  match s with
  | "am" => .ok .AM
  | "pm" => .ok .PM
  | _ => .error (.UnknownAMPM s)

/-- `parser.rs`: `fn shortcut_day_from(s)`. -/
def shortcut_day_from (s : String) : Except ParseError ShortcutDay :=
  match s with
  | "today" => .ok .Today
  | "yesterday" => .ok .Yesterday
  | "tomorrow" => .ok .Tomorrow
  | _ => .error (.UnknownShortcutDay s)

/-- `parser.rs`: `fn modifier_from(s)`. -/
def modifier_from (s : String) : Except ParseError Modifier :=
  match s with
  | "last" => .ok .Last
  | "next" => .ok .Next
  | _ => .error (.UnknownModifier s)

/-- `parser.rs`: `fn quantifier_from(s)`. -/
def quantifier_from (s : String) : Except ParseError Quantifier :=
  match s with
  | "min" => .ok .Min
  | "hours" | "hour" | "h" => .ok .Hours
  | "days" | "day" | "d" => .ok .Days
  | "weeks" | "week" | "w" => .ok .Weeks
  | "months" | "month" => .ok .Months
  | _ => .error (.UnknownQuantifier s)

/-- `parser.rs`: `fn parse_time_hms(rules_and_str)` — slice patterns become
list patterns; each `parse()?` and conversion `?` is an explicit match in
the source's evaluation order. -/
def parse_time_hms (rules_and_str : List (Rule × String)) : Except ParseError TimeClue :=
  match rules_and_str with
  | [(.hms, h)] =>
    match parseU32 h with
    | .error e => .error e
    | .ok h => .ok (.Time (h, 0, 0) none)
  | [(.hms, h), (.hms, m)] =>
    match parseU32 h with
    | .error e => .error e
    | .ok h =>
      match parseU32 m with
      | .error e => .error e
      | .ok m => .ok (.Time (h, m, 0) none)
  | [(.hms, h), (.hms, m), (.hms, s)] =>
    match parseU32 h with
    | .error e => .error e
    | .ok h =>
      match parseU32 m with
      | .error e => .error e
      | .ok m =>
        match parseU32 s with
        | .error e => .error e
        | .ok s => .ok (.Time (h, m, s) none)
  | [(.hms, h), (.am_or_pm, a)] =>
    match parseU32 h with
    | .error e => .error e
    | .ok h =>
      match am_or_pm_from a with
      | .error e => .error e
      | .ok a => .ok (.Time (h, 0, 0) (some a))
  | [(.hms, h), (.hms, m), (.am_or_pm, a)] =>
    match parseU32 h with
    | .error e => .error e
    | .ok h =>
      match parseU32 m with
      | .error e => .error e
      | .ok m =>
        match am_or_pm_from a with
        | .error e => .error e
        | .ok a => .ok (.Time (h, m, 0) (some a))
  | [(.hms, h), (.hms, m), (.hms, s), (.am_or_pm, a)] =>
    match parseU32 h with
    | .error e => .error e
    | .ok h =>
      match parseU32 m with
      | .error e => .error e
      | .ok m =>
        match parseU32 s with
        | .error e => .error e
        | .ok s =>
          match am_or_pm_from a with
          | .error e => .error e
          | .ok a => .ok (.Time (h, m, s) (some a))
  | _ => .error .UnexpectedNonMatchingPattern

/-- A Rust slice pattern `[prefixed.., (Rule::EOI, _)]`: strips a final EOI
pair, failing when the list is empty or does not end in EOI. -/
def stripEOI (l : List (Rule × String)) : Option (List (Rule × String)) :=
  match l.getLast? with
  | some (.EOI, _) => some l.dropLast
  | _ => none

/-- Helper for the `day_at` arm of `parse_time_clue`: the inner match on the
`mday @ ..` sub-slice. -/
def parse_mday (mday : List (Rule × String)) : Except ParseError TimeClue :=
  match mday with
  | (.modifier, m) :: (.weekday, w) :: (.time, _) :: time_hms =>
    match parse_time_hms time_hms with
    | .error e => .error e
    | .ok tc =>
      let (time_maybe, am_or_pm_maybe) :=
        match tc with
        | .Time hms am_or_pm => (some hms, am_or_pm)
        | _ => (none, none)
      match modifier_from m with
      | .error e => .error e
      | .ok m =>
        match weekday_from w with
        | .error e => .error e
        | .ok w => .ok (.RelativeDayAt m w time_maybe am_or_pm_maybe)
  | [(.modifier, m), (.weekday, w)] =>
    match modifier_from m with
    | .error e => .error e
    | .ok m =>
      match weekday_from w with
      | .error e => .error e
      | .ok w => .ok (.RelativeDayAt m w none none)
  | [(.weekday, w)] =>
    match weekday_from w with
    | .error e => .error e
    | .ok w => .ok (.SameWeekDayAt w none none)
  | (.weekday, w) :: (.time, _) :: time_hms =>
    match parse_time_hms time_hms with
    | .error e => .error e
    | .ok tc =>
      let (time_maybe, am_or_pm_maybe) :=
        match tc with
        | .Time hms am_or_pm => (some hms, am_or_pm)
        | _ => (none, none)
      match weekday_from w with
      | .error e => .error e
      | .ok w => .ok (.SameWeekDayAt w time_maybe am_or_pm_maybe)
  | (.shortcut_day, r) :: (.time, _) :: time_hms =>
    match parse_time_hms time_hms with
    | .error e => .error e
    | .ok tc =>
      let (time_maybe, am_or_pm_maybe) :=
        match tc with
        | .Time hms am_or_pm => (some hms, am_or_pm)
        | _ => (none, none)
      match shortcut_day_from r with
      | .error e => .error e
      | .ok r => .ok (.ShortcutDayAt r time_maybe am_or_pm_maybe)
  | [(.shortcut_day, r)] =>
    match shortcut_day_from r with
    | .error e => .error e
    | .ok r => .ok (.ShortcutDayAt r none none)
  | _ => .error .UnexpectedNonMatchingPattern

/-- `parser.rs`: `fn parse_time_clue(pairs)` on the flattened
(rule, text) sequence.  A Rust arm whose pattern pins the head rules and a
final `(Rule::EOI, _)` becomes a head match plus `stripEOI`; when
`stripEOI` fails no other Rust arm can match the same head rules, so
falling to the catch-all error is equivalent. -/
def parse_time_clue (rules_and_str : List (Rule × String)) : Except ParseError TimeClue :=
  match rules_and_str with
  | [(.time_clue, _), (.now, _), (.EOI, _)] => .ok .Now
  | (.time_clue, _) :: (.time, _) :: rest =>
    match stripEOI rest with
    | some time_hms => parse_time_hms time_hms
    | none => .error .UnexpectedNonMatchingPattern
  | [(.time_clue, _), (.relative, _), (.int, s), (.quantifier, q), (.EOI, _)] =>
    match parseUsize s with
    | .error e => .error e
    | .ok n =>
      match quantifier_from q with
      | .error e => .error e
      | .ok q => .ok (.Relative n q)
  | [(.time_clue, _), (.relative_future, _), (.int, s), (.quantifier, q), (.EOI, _)] =>
    match parseUsize s with
    | .error e => .error e
    | .ok n =>
      match quantifier_from q with
      | .error e => .error e
      | .ok q => .ok (.RelativeFuture n q)
  | (.time_clue, _) :: (.day_at, _) :: (.mday, _) :: rest =>
    match stripEOI rest with
    | some mday => parse_mday mday
    | none => .error .UnexpectedNonMatchingPattern
  | (.time_clue, _) :: (.iso, _) :: (.year, y) :: (.month, m) :: (.day, d) :: rest =>
    match stripEOI rest with
    | some time_hms =>
      match parse_time_hms time_hms with
      | .error e => .error e
      | .ok (.Time hms _) =>
        match parseI32 y with
        | .error e => .error e
        | .ok y =>
          match parseU32 m with
          | .error e => .error e
          | .ok m =>
            match parseU32 d with
            | .error e => .error e
            | .ok d => .ok (.ISO (y, m, d) hms)
      | .ok _ => .error .UnexpectedNonMatchingPattern
    | none => .error .UnexpectedNonMatchingPattern
  | [(.time_clue, _), (.date, _), (.day, d), (.month, m), (.year, y), (.EOI, _)] =>
    match parseI32 y with
    | .error e => .error e
    | .ok y =>
      match parseU32 m with
      | .error e => .error e
      | .ok m =>
        match parseU32 d with
        | .error e => .error e
        | .ok d => .ok (.ISO (y, m, d) (0, 0, 0))
  | _ => .error .UnexpectedNonMatchingPattern

/-- Modelled from the spec: the pest grammar file `time.pest` is not under
`src/`, so the tokenization of a time-of-day phrase (`H`, `H:M`, `H:M:S`,
optionally followed by an am/pm-position word) is modelled from §4.1 of
the spec.  It produces the flattened `hms*` / `am_or_pm?` token sequence
that `parse_time_hms` consumes; any letters in the am/pm position are
captured as the `am_or_pm` token's text (the spec has `"9 xm"` reaching
the unknown-AM/PM-token error, so the token itself matches any word). -/
def tokenizeTime (cs : List Char) : Option (List (Rule × String)) :=
  let d1 := cs.takeWhile Char.isDigit
  let r1 := cs.dropWhile Char.isDigit
  if d1.isEmpty then none
  else
    let finish (toks : List (Rule × String)) (rest : List Char) :
        Option (List (Rule × String)) :=
      let rest := rest.dropWhile (· = ' ')
      if rest.isEmpty then some toks
      else if rest.all Char.isAlpha then some (toks ++ [(.am_or_pm, String.mk rest)])
      else none
    match r1 with
    | ':' :: r2 =>
      let d2 := r2.takeWhile Char.isDigit
      let r3 := r2.dropWhile Char.isDigit
      if d2.isEmpty then none
      else
        match r3 with
        | ':' :: r4 =>
          let d3 := r4.takeWhile Char.isDigit
          let r5 := r4.dropWhile Char.isDigit
          if d3.isEmpty then none
          else
            finish [(.hms, String.mk d1), (.hms, String.mk d2), (.hms, String.mk d3)] r5
        | _ => finish [(.hms, String.mk d1), (.hms, String.mk d2)] r3
    | _ => finish [(.hms, String.mk d1)] r1

/-- Modelled from the spec: whitespace trimming of the input phrase,
character-list based. -/
def trimChars (cs : List Char) : List Char :=
  ((cs.dropWhile Char.isWhitespace).reverse.dropWhile Char.isWhitespace).reverse

/-- Modelled from the spec: `parse_time_clue_from_str` of `parser.rs`
composed with the missing pest tokenizer.  The `now` and time-of-day
phrase families of §4.1 are tokenized (case-insensitively, after trimming);
a phrase outside the modelled families is a pest grammar mismatch
(`PestError`).  The flattened pairs are handed to `parse_time_clue`
exactly as in the source. -/
def parse_time_clue_from_str (s : String) : Except ParseError TimeClue :=
  let t := String.mk (trimChars (s.data.map Char.toLower))
  if t = "now" then
    parse_time_clue [(.time_clue, t), (.now, t), (.EOI, "")]
  else
    match tokenizeTime t.data with
    | some toks => parse_time_clue ([(.time_clue, t), (.time, t)] ++ toks ++ [(.EOI, "")])
    | none => .error .PestError

end Parser

namespace Interpreter

open Parser

/-- `interpreter.rs`: `pub enum EvaluationError` (chrono feature).
`ChronoISOError` is the invalid-ISO-date error, displayed as
"invalid ISO date: y-m-dTh:m:s". -/
inductive EvaluationError
  | InvalidTimeAMPM (hour minute second : Nat) (am_or_pm : AMPM)
  | InvalidTime (hour minute second : Nat)
  | ChronoISOError (year : Int) (month day hour minute second : Nat)
deriving DecidableEq, Repr

/-- `interpreter.rs`: `fn check_hms(hms, am_or_pm_maybe)`. -/
def check_hms (hms : HMS) (am_or_pm_maybe : Option AMPM) : Except EvaluationError HMS :=
  let (h, m, s) := hms
  let h_am_pm := match am_or_pm_maybe with
    | none | some .AM => h
    | some .PM => h + 12
  if h_am_pm < 24 ∧ m < 60 ∧ s < 60 then
    .ok (h_am_pm, m, s)
  else
    match am_or_pm_maybe with
    | some am_or_pm => .error (.InvalidTimeAMPM h m s am_or_pm)
    | none => .error (.InvalidTime h m s)

/-- A timestamp: seconds since 1970-01-01T00:00:00 UTC. -/
abbrev DateTime := Int

/-- chrono `DateTime::date()` on a UTC instant: the day number since the
epoch, flooring (earlier instants have smaller day numbers). -/
def dateOf (t : DateTime) : Int := t.fdiv 86400

/-- chrono `Date::and_hms(h, m, s)` on a UTC date: the instant at that
clock time on that day. -/
def and_hms (date : Int) (h m s : Nat) : DateTime :=
  date * 86400 + (h * 3600 + m * 60 + s : Nat)

/-- chrono `now.weekday().num_days_from_monday()` for a UTC instant:
1970-01-01 (day 0) was a Thursday, index 3 from Monday. -/
def weekdayIdxOf (t : DateTime) : Nat := ((dateOf t + 3) % 7).toNat

/-- chrono `Duration::minutes(n)` in seconds. -/
def minutes (n : Nat) : Int := 60 * n

/-- chrono `Duration::hours(n)` in seconds. -/
def hours (n : Nat) : Int := 3600 * n

/-- chrono `Duration::days(n)` in seconds. -/
def days (n : Nat) : Int := 86400 * n

/-- chrono `Duration::weeks(n)` in seconds. -/
def weeks (n : Nat) : Int := 7 * 86400 * n

/-- Gregorian leap-year rule, as implemented by the chrono collaborator. -/
def isLeapYear (y : Int) : Bool := y % 4 == 0 && (y % 100 != 0 || y % 400 == 0)

/-- Length of a month of the proleptic Gregorian calendar (0 for an
out-of-range month number). -/
def daysInMonth (y : Int) : Nat → Nat
  | 1 => 31
  | 2 => if isLeapYear y then 29 else 28
  | 3 => 31
  | 4 => 30
  | 5 => 31
  | 6 => 30
  | 7 => 31
  | 8 => 31
  | 9 => 30
  | 10 => 31
  | 11 => 30
  | 12 => 31
  | _ => 0

/-- Day number since 1970-01-01 of a Gregorian calendar date
(standard civil-from-days inverse, era = 400-year cycle). -/
def daysFromCivil (y : Int) (m d : Nat) : Int :=
  let yAdj := if m ≤ 2 then y - 1 else y
  let era := yAdj.fdiv 400
  let yoe := (yAdj - era * 400).toNat
  let doy := (153 * ((m + 9) % 12) + 2) / 5 + (d - 1)
  let doe := yoe * 365 + yoe / 4 - yoe / 100 + doy
  era * 146097 + (doe : Int) - 719468

/-- Validity of calendar fields as checked by the chrono collaborator:
`Utc.ymd_opt(y, m, d).and_hms_opt(h, mi, s)` is `LocalResult::Single` iff
the date is a real Gregorian date within chrono's representable year range
(-262144..=262143) and the clock fields are in range. -/
def ymd_hms_valid (y : Int) (m d h mi s : Nat) : Prop :=
  -262144 ≤ y ∧ y ≤ 262143 ∧ 1 ≤ m ∧ m ≤ 12 ∧ 1 ≤ d ∧ d ≤ daysInMonth y m ∧
    h < 24 ∧ mi < 60 ∧ s < 60

instance (y : Int) (m d h mi s : Nat) : Decidable (ymd_hms_valid y m d h mi s) := by
  unfold ymd_hms_valid
  infer_instance

/-- `interpreter.rs`: `pub fn evaluate_time_clue(time_clue, now, assume_next_day)`
(chrono feature), with `now` a UTC instant.  Each `?` on `check_hms` is an
explicit match; `Date` arithmetic is day arithmetic, `DateTime` arithmetic is
second arithmetic; `Utc.ymd_opt(..).and_hms_opt(..)` together with
`with_timezone` (which keeps the instant) is the validity-checked civil
construction. -/
def evaluate_time_clue (time_clue : TimeClue) (now : DateTime) (assume_next_day : Bool) :
    Except EvaluationError DateTime :=
  match time_clue with
  | .Now => .ok now
  | .Time (h, m, s) am_or_pm_maybe =>
    match check_hms (h, m, s) am_or_pm_maybe with
    | .error e => .error e
    | .ok (h, m, s) =>
      let d := and_hms (dateOf now) h m s
      if assume_next_day ∧ d < now then .ok (d + days 1) else .ok d
  | .Relative n q =>
    match q with
    | .Min => .ok (now - minutes n)
    | .Hours => .ok (now - hours n)
    | .Days => .ok (now - days n)
    | .Weeks => .ok (now - weeks n)
    | .Months => .ok (now - days (30 * n))
  | .RelativeFuture n q =>
    match q with
    | .Min => .ok (now + minutes n)
    | .Hours => .ok (now + hours n)
    | .Days => .ok (now + days n)
    | .Weeks => .ok (now + weeks n)
    | .Months => .ok (now + days (30 * n))
  | .RelativeDayAt modifier weekday hms_maybe am_or_pm_maybe =>
    match check_hms (hms_maybe.getD (0, 0, 0)) am_or_pm_maybe with
    | .error e => .error e
    | .ok (h, m, s) =>
      let monday := dateOf now - (weekdayIdxOf now : Int)
      match modifier with
      | .Last =>
        let same_week_day := monday + (weekday.num_days_from_monday : Int)
        if weekday.num_days_from_monday < weekdayIdxOf now then
          .ok (and_hms same_week_day h m s)
        else
          .ok (and_hms same_week_day h m s - days 7)
      | .Next =>
        let same_week_day := monday + (weekday.num_days_from_monday : Int)
        if weekday.num_days_from_monday > weekdayIdxOf now then
          .ok (and_hms same_week_day h m s)
        else
          .ok (and_hms same_week_day h m s + days 7)
  | .SameWeekDayAt weekday hms_maybe am_or_pm_maybe =>
    match check_hms (hms_maybe.getD (0, 0, 0)) am_or_pm_maybe with
    | .error e => .error e
    | .ok (h, m, s) =>
      let monday := dateOf now - (weekdayIdxOf now : Int)
      .ok (and_hms (monday + (weekday.num_days_from_monday : Int)) h m s)
  | .ShortcutDayAt rday hms_maybe am_or_pm_maybe =>
    match check_hms (hms_maybe.getD (0, 0, 0)) am_or_pm_maybe with
    | .error e => .error e
    | .ok (h, m, s) =>
      match rday with
      | .Today => .ok (and_hms (dateOf now) h m s)
      | .Yesterday => .ok (and_hms (dateOf now - 1) h m s)
      | .Tomorrow => .ok (and_hms (dateOf now + 1) h m s)
  | .ISO (year, month, day) (h, m, s) =>
    if ymd_hms_valid year month day h m s then
      .ok (and_hms (daysFromCivil year month day) h m s)
    else
      .error (.ChronoISOError year month day h m s)

/-- `interpreter.rs`: `pub fn evaluate(time_clue, now)` =
`evaluate_time_clue(time_clue, now, false)`. -/
def evaluate (time_clue : TimeClue) (now : DateTime) : Except EvaluationError DateTime :=
  evaluate_time_clue time_clue now false

/-- Convenience for stating concrete instants: the UTC instant with the
given civil date and clock time. -/
def mkDateTime (y : Int) (mo d h mi s : Nat) : DateTime :=
  and_hms (daysFromCivil y mo d) h mi s

end Interpreter

/-- `lib.rs`: `pub enum HTPError`, wrapping either stage's error. -/
inductive HTPError
  | ParseError (e : Parser.ParseError)
  | EvaluationError (e : Interpreter.EvaluationError)
deriving DecidableEq, Repr

/-- `lib.rs`: `pub fn parse_time_clue(s, now, assume_next_day)` — parse,
then evaluate, each `?` wrapping the stage error into `HTPError`. -/
def parse_time_clue (s : String) (now : Interpreter.DateTime) (assume_next_day : Bool) :
    Except HTPError Interpreter.DateTime :=
  match Parser.parse_time_clue_from_str s with
  | .error e => .error (.ParseError e)
  | .ok time_clue =>
    match Interpreter.evaluate_time_clue time_clue now assume_next_day with
    | .error e => .error (.EvaluationError e)
    | .ok datetime => .ok datetime

/-- `lib.rs`: `pub fn parse(s, now)` = `parse_time_clue(s, now, false)`. -/
def parse (s : String) (now : Interpreter.DateTime) : Except HTPError Interpreter.DateTime :=
  parse_time_clue s now false

/-- Claim C1: `check_hms` adds 12 to the hour when the marker is PM and
leaves it unchanged for AM or no marker; it succeeds returning the adjusted
triple exactly when the adjusted hour is below 24 and minute and second are
below 60, and otherwise fails with `InvalidTimeAMPM` when a marker was
present and `InvalidTime` when none was.  In particular (19,43,42) with PM
fails, and hour 24 fails for every marker. -/
theorem check_hms_spec :
    (∀ h m s : Nat, Interpreter.check_hms (h, m, s) none =
      if h < 24 ∧ m < 60 ∧ s < 60 then .ok (h, m, s)
      else .error (.InvalidTime h m s)) ∧
    (∀ h m s : Nat, Interpreter.check_hms (h, m, s) (some .AM) =
      if h < 24 ∧ m < 60 ∧ s < 60 then .ok (h, m, s)
      else .error (.InvalidTimeAMPM h m s .AM)) ∧
    (∀ h m s : Nat, Interpreter.check_hms (h, m, s) (some .PM) =
      if h + 12 < 24 ∧ m < 60 ∧ s < 60 then .ok (h + 12, m, s)
      else .error (.InvalidTimeAMPM h m s .PM)) ∧
    Interpreter.check_hms (19, 43, 42) (some .PM) =
      .error (.InvalidTimeAMPM 19 43 42 .PM) ∧
    (∀ (a : Option Parser.AMPM) (m s : Nat),
      ∃ e, Interpreter.check_hms (24, m, s) a = .error e) := by
  refine ⟨fun h m s => rfl, fun h m s => rfl, fun h m s => rfl, rfl, fun a m s => ?_⟩
  cases a with
  | none => exact ⟨_, rfl⟩
  | some x => cases x <;> exact ⟨_, rfl⟩

/-- Claim C6: the PM adjustment does not special-case an input hour of 12:
for in-range minutes and seconds, (12, m, s) with PM computes hour 24 and
fails, while (12, m, s) with AM succeeds returning hour 12 unchanged. -/
theorem pm_no_special_case_hour12 :
    ∀ m s : Nat, m < 60 → s < 60 →
      Interpreter.check_hms (12, m, s) (some .PM) =
        .error (.InvalidTimeAMPM 12 m s .PM) ∧
      Interpreter.check_hms (12, m, s) (some .AM) = .ok (12, m, s) := by
  intro m s hm hs
  constructor
  · simp [Interpreter.check_hms]
  · simp [Interpreter.check_hms, hm, hs]

/-- Witness for C6 at m = 0, s = 0. -/
theorem pm_no_special_case_hour12_witness :
    (0 : Nat) < 60 ∧ (0 : Nat) < 60 ∧
      (Interpreter.check_hms (12, 0, 0) (some .PM) =
        .error (.InvalidTimeAMPM 12 0 0 .PM) ∧
      Interpreter.check_hms (12, 0, 0) (some .AM) = .ok (12, 0, 0)) :=
  ⟨by decide, by decide, pm_no_special_case_hour12 0 0 (by decide) (by decide)⟩

/-- Claim C10: whenever `check_hms` fails with an AM/PM marker present,
the `InvalidTimeAMPM` error carries the original hour before the +12 PM
adjustment, together with the unmodified minute, second and marker. -/
theorem invalid_time_ampm_carries_original_hour :
    ∀ (h m s : Nat) (a : Parser.AMPM) (e : Interpreter.EvaluationError),
      Interpreter.check_hms (h, m, s) (some a) = .error e →
      e = .InvalidTimeAMPM h m s a := by
  intro h m s a e hfail
  cases a <;> simp only [Interpreter.check_hms] at hfail <;> split at hfail <;>
    simp_all

/-- Witness for C10: (19,43,42) with PM fails and the error holds hour 19,
not 31. -/
theorem invalid_time_ampm_carries_original_hour_witness :
    Interpreter.check_hms (19, 43, 42) (some .PM) =
      .error (.InvalidTimeAMPM 19 43 42 .PM) ∧
    Interpreter.EvaluationError.InvalidTimeAMPM 19 43 42 .PM =
      .InvalidTimeAMPM 19 43 42 .PM :=
  ⟨rfl, invalid_time_ampm_carries_original_hour 19 43 42 .PM _ rfl⟩

/-- Claim C3: `Time(hms, ampm)` evaluates to now's calendar day with the
clock set to the validated hms; with the roll-forward flag set and the
result strictly earlier than now, one day is added; otherwise the same-day
result is returned unchanged.  Concretely, against 2020-07-12T12:45:00,
`Time((8,0,0), None)` gives 2020-07-12T08:00:00 without roll-forward and
2020-07-13T08:00:00 with it. -/
theorem time_clue_roll_forward_spec :
    (∀ (hms : Parser.HMS) (ampm : Option Parser.AMPM) (now : Interpreter.DateTime)
        (h m s : Nat),
      Interpreter.check_hms hms ampm = .ok (h, m, s) →
      Interpreter.evaluate_time_clue (.Time hms ampm) now false =
        .ok (Interpreter.and_hms (Interpreter.dateOf now) h m s) ∧
      Interpreter.evaluate_time_clue (.Time hms ampm) now true =
        (if Interpreter.and_hms (Interpreter.dateOf now) h m s < now then
          .ok (Interpreter.and_hms (Interpreter.dateOf now) h m s + Interpreter.days 1)
        else
          .ok (Interpreter.and_hms (Interpreter.dateOf now) h m s))) ∧
    Interpreter.evaluate_time_clue (.Time (8, 0, 0) none)
      (Interpreter.mkDateTime 2020 7 12 12 45 0) false =
      .ok (Interpreter.mkDateTime 2020 7 12 8 0 0) ∧
    Interpreter.evaluate_time_clue (.Time (8, 0, 0) none)
      (Interpreter.mkDateTime 2020 7 12 12 45 0) true =
      .ok (Interpreter.mkDateTime 2020 7 13 8 0 0) := by
  refine ⟨?_, rfl, rfl⟩
  intro hms ampm now h m s hchk
  obtain ⟨h0, m0, s0⟩ := hms
  constructor
  · simp [Interpreter.evaluate_time_clue, hchk]
  · simp only [Interpreter.evaluate_time_clue, hchk]
    split
    · rename_i hc
      rw [if_pos hc.2]
    · rename_i hc
      rw [if_neg (fun hlt => hc ⟨by simp, hlt⟩)]

/-- Witness for C3 at hms = (8,0,0), no marker, now = the epoch. -/
theorem time_clue_roll_forward_spec_witness :
    Interpreter.check_hms (8, 0, 0) none = .ok (8, 0, 0) ∧
    Interpreter.evaluate_time_clue (.Time (8, 0, 0) none) 0 false =
      .ok (Interpreter.and_hms (Interpreter.dateOf 0) 8 0 0) :=
  ⟨rfl, (time_clue_roll_forward_spec.1 (8, 0, 0) none 0 8 0 0 rfl).1⟩

/-- Claim C2: `RelativeDayAt(modifier, weekday, hms?, ampm?)` resolves to
the occurrence of the weekday in now's calendar week (monday of now's week
plus the weekday's zero-based index); `Last` keeps it when the target index
is strictly below now's index and otherwise moves 7 days back; `Next` keeps
it when the target index is strictly above now's index and otherwise moves
7 days forward; the validated hms (default midnight) is applied.
Concretely, against Sunday 2020-07-12T12:45:00, `RelativeDayAt(Next,
Friday, None, None)` gives 2020-07-17T00:00:00. -/
theorem relative_day_at_spec :
    (∀ (w : Parser.Weekday) (hmsM : Option Parser.HMS) (ampm : Option Parser.AMPM)
        (now : Interpreter.DateTime) (b : Bool) (h m s : Nat),
      Interpreter.check_hms (hmsM.getD (0, 0, 0)) ampm = .ok (h, m, s) →
      Interpreter.evaluate_time_clue (.RelativeDayAt .Last w hmsM ampm) now b =
        (if w.num_days_from_monday < Interpreter.weekdayIdxOf now then
          .ok (Interpreter.and_hms
            (Interpreter.dateOf now - (Interpreter.weekdayIdxOf now : Int) +
              (w.num_days_from_monday : Int)) h m s)
        else
          .ok (Interpreter.and_hms
            (Interpreter.dateOf now - (Interpreter.weekdayIdxOf now : Int) +
              (w.num_days_from_monday : Int)) h m s - Interpreter.days 7)) ∧
      Interpreter.evaluate_time_clue (.RelativeDayAt .Next w hmsM ampm) now b =
        (if Interpreter.weekdayIdxOf now < w.num_days_from_monday then
          .ok (Interpreter.and_hms
            (Interpreter.dateOf now - (Interpreter.weekdayIdxOf now : Int) +
              (w.num_days_from_monday : Int)) h m s)
        else
          .ok (Interpreter.and_hms
            (Interpreter.dateOf now - (Interpreter.weekdayIdxOf now : Int) +
              (w.num_days_from_monday : Int)) h m s + Interpreter.days 7))) ∧
    Interpreter.evaluate_time_clue (.RelativeDayAt .Next .Friday none none)
      (Interpreter.mkDateTime 2020 7 12 12 45 0) false =
      .ok (Interpreter.mkDateTime 2020 7 17 0 0 0) := by
  refine ⟨?_, rfl⟩
  intro w hmsM ampm now b h m s hchk
  constructor <;> simp only [Interpreter.evaluate_time_clue, hchk, gt_iff_lt]

/-- Witness for C2 at weekday Wednesday, no time, no marker, now = epoch. -/
theorem relative_day_at_spec_witness :
    Interpreter.check_hms ((none : Option Parser.HMS).getD (0, 0, 0)) none = .ok (0, 0, 0) ∧
    Interpreter.evaluate_time_clue (.RelativeDayAt .Next .Wednesday none none) 0 false =
      .ok (Interpreter.mkDateTime 1970 1 7 0 0 0) := by
  refine ⟨rfl, ?_⟩
  rw [(relative_day_at_spec.1 .Wednesday none none 0 false 0 0 0 rfl).2]
  rfl

/-- Claim C8: `SameWeekDayAt(weekday, hms?, ampm?)` always evaluates to the
occurrence of the weekday within now's current calendar week — monday of
now's week plus the weekday's zero-based index — with the validated hms
(default midnight), independently of whether that day is before or after
now in the week. -/
theorem same_week_day_at_spec :
    ∀ (w : Parser.Weekday) (hmsM : Option Parser.HMS) (ampm : Option Parser.AMPM)
      (now : Interpreter.DateTime) (b : Bool) (h m s : Nat),
      Interpreter.check_hms (hmsM.getD (0, 0, 0)) ampm = .ok (h, m, s) →
      Interpreter.evaluate_time_clue (.SameWeekDayAt w hmsM ampm) now b =
        .ok (Interpreter.and_hms
          (Interpreter.dateOf now - (Interpreter.weekdayIdxOf now : Int) +
            (w.num_days_from_monday : Int)) h m s) := by
  intro w hmsM ampm now b h m s hchk
  simp only [Interpreter.evaluate_time_clue, hchk]

/-- Witness for C8: Friday of the week of Sunday 2020-07-12 is 2020-07-10,
a day strictly before now. -/
theorem same_week_day_at_spec_witness :
    Interpreter.check_hms ((none : Option Parser.HMS).getD (0, 0, 0)) none = .ok (0, 0, 0) ∧
    Interpreter.evaluate_time_clue (.SameWeekDayAt .Friday none none)
      (Interpreter.mkDateTime 2020 7 12 12 45 0) false =
      .ok (Interpreter.mkDateTime 2020 7 10 0 0 0) := by
  refine ⟨rfl, ?_⟩
  rw [same_week_day_at_spec .Friday none none (Interpreter.mkDateTime 2020 7 12 12 45 0)
    false 0 0 0 rfl]
  rfl

/-- The spec's unit table: 60 s per minute, 3600 s per hour, 86400 s per
day, 7·86400 s per week, 30·86400 s per month (a month is exactly 30 days,
not a calendar month). -/
def unitSeconds : Parser.Quantifier → Nat
  | .Min => 60
  | .Hours => 3600
  | .Days => 86400
  | .Weeks => 7 * 86400
  | .Months => 30 * 86400

/-- Claim C5: `Relative(n, q)` evaluates to now − n·unit(q) and
`RelativeFuture(n, q)` to now + n·unit(q), with the spec's unit table. -/
theorem relative_units_spec :
    ∀ (n : Nat) (q : Parser.Quantifier) (now : Interpreter.DateTime) (b : Bool),
      Interpreter.evaluate_time_clue (.Relative n q) now b =
        .ok (now - ((n * unitSeconds q : Nat) : Int)) ∧
      Interpreter.evaluate_time_clue (.RelativeFuture n q) now b =
        .ok (now + ((n * unitSeconds q : Nat) : Int)) := by
  intro n q now b
  cases q <;>
    constructor <;>
    simp only [Interpreter.evaluate_time_clue, unitSeconds, Interpreter.minutes,
      Interpreter.hours, Interpreter.days, Interpreter.weeks, Except.ok.injEq] <;>
    push_cast <;>
    ring

/-- Claim C4: `Iso((y,mo,d),(h,mi,s))` constructs the calendar date-time
from exactly the given fields (in the reference instant's zone, which for
the UTC-normalised pipeline is the instant itself) when they are valid, and
fails with the invalid-ISO-date error carrying all six fields whenever they
are not — never falling back to a value such as now.  `Iso((2020,2,30),
(0,0,0))` fails for every reference instant. -/
theorem iso_eval_spec :
    (∀ (y : Int) (mo d h mi s : Nat) (now : Interpreter.DateTime) (b : Bool),
      (Interpreter.ymd_hms_valid y mo d h mi s →
        Interpreter.evaluate_time_clue (.ISO (y, mo, d) (h, mi, s)) now b =
          .ok (Interpreter.and_hms (Interpreter.daysFromCivil y mo d) h mi s)) ∧
      (¬ Interpreter.ymd_hms_valid y mo d h mi s →
        Interpreter.evaluate_time_clue (.ISO (y, mo, d) (h, mi, s)) now b =
          .error (.ChronoISOError y mo d h mi s))) ∧
    (∀ (now : Interpreter.DateTime) (b : Bool),
      Interpreter.evaluate_time_clue (.ISO (2020, 2, 30) (0, 0, 0)) now b =
        .error (.ChronoISOError 2020 2 30 0 0 0)) := by
  constructor
  · intro y mo d h mi s now b
    constructor
    · intro hv
      simp only [Interpreter.evaluate_time_clue]
      rw [if_pos hv]
    · intro hv
      simp only [Interpreter.evaluate_time_clue]
      rw [if_neg hv]
  · intro now b
    simp only [Interpreter.evaluate_time_clue]
    rw [if_neg (by decide)]

/-- Witness for C4: 2020-12-25T19:43:42 is a valid civil date-time and
evaluates to its civil construction; February 30 is invalid and fails. -/
theorem iso_eval_spec_witness :
    Interpreter.ymd_hms_valid 2020 12 25 19 43 42 ∧
    Interpreter.evaluate_time_clue (.ISO (2020, 12, 25) (19, 43, 42)) 0 false =
      .ok (Interpreter.and_hms (Interpreter.daysFromCivil 2020 12 25) 19 43 42) ∧
    ¬ Interpreter.ymd_hms_valid 2020 2 30 0 0 0 ∧
    Interpreter.evaluate_time_clue (.ISO (2020, 2, 30) (0, 0, 0)) 0 false =
      .error (.ChronoISOError 2020 2 30 0 0 0) :=
  ⟨by decide, (iso_eval_spec.1 2020 12 25 19 43 42 0 false).1 (by decide),
    by decide, (iso_eval_spec.1 2020 2 30 0 0 0 0 false).2 (by decide)⟩

/-- Claim C7: parsing performs no semantic validation of numeric ranges:
every in-grammar time-of-day token shape whose numeric tokens fit `u32`
yields a `Time` clue carrying the raw numbers, with unwritten minute and
second fields defaulted to 0; in particular the text "25:99" parses as
`Time((25,99,0), None)`, leaving range checking to evaluation. -/
theorem parse_time_hms_no_validation :
    (∀ (hs : String) (h : Nat), Parser.parseU32 hs = .ok h →
      Parser.parse_time_hms [(.hms, hs)] = .ok (.Time (h, 0, 0) none)) ∧
    (∀ (hs ms : String) (h m : Nat),
      Parser.parseU32 hs = .ok h → Parser.parseU32 ms = .ok m →
      Parser.parse_time_hms [(.hms, hs), (.hms, ms)] = .ok (.Time (h, m, 0) none)) ∧
    (∀ (hs ms ss : String) (h m s : Nat),
      Parser.parseU32 hs = .ok h → Parser.parseU32 ms = .ok m →
      Parser.parseU32 ss = .ok s →
      Parser.parse_time_hms [(.hms, hs), (.hms, ms), (.hms, ss)] =
        .ok (.Time (h, m, s) none)) ∧
    (∀ (hs as : String) (h : Nat) (a : Parser.AMPM),
      Parser.parseU32 hs = .ok h → Parser.am_or_pm_from as = .ok a →
      Parser.parse_time_hms [(.hms, hs), (.am_or_pm, as)] =
        .ok (.Time (h, 0, 0) (some a))) ∧
    (∀ (hs ms as : String) (h m : Nat) (a : Parser.AMPM),
      Parser.parseU32 hs = .ok h → Parser.parseU32 ms = .ok m →
      Parser.am_or_pm_from as = .ok a →
      Parser.parse_time_hms [(.hms, hs), (.hms, ms), (.am_or_pm, as)] =
        .ok (.Time (h, m, 0) (some a))) ∧
    (∀ (hs ms ss as : String) (h m s : Nat) (a : Parser.AMPM),
      Parser.parseU32 hs = .ok h → Parser.parseU32 ms = .ok m →
      Parser.parseU32 ss = .ok s → Parser.am_or_pm_from as = .ok a →
      Parser.parse_time_hms [(.hms, hs), (.hms, ms), (.hms, ss), (.am_or_pm, as)] =
        .ok (.Time (h, m, s) (some a))) ∧
    Parser.parse_time_clue_from_str ("25:99") = .ok (.Time (25, 99, 0) none) := by
  refine ⟨?_, ?_, ?_, ?_, ?_, ?_, rfl⟩ <;> intros <;>
    simp only [Parser.parse_time_hms, *]

/-- Witness for C7: the raw tokens "25" and "99" fit `u32` and the token
shape H:M yields `Time((25,99,0), None)`. -/
theorem parse_time_hms_no_validation_witness :
    Parser.parseU32 ("25") = .ok 25 ∧ Parser.parseU32 ("99") = .ok 99 ∧
    Parser.parse_time_hms [(.hms, "25"), (.hms, "99")] = .ok (.Time (25, 99, 0) none) :=
  ⟨rfl, rfl, parse_time_hms_no_validation.2.1 ("25") ("99") 25 99 rfl rfl⟩

/-- Claim C9: the top-level `parse(text, now)` returns exactly the same
result as the configurable entry point with roll-forward disabled, i.e.
parsing the text into a `TimeClue` and evaluating it with
`assume_next_day = false`; either stage's error surfaces wrapped in the
single top-level error type `HTPError`. -/
theorem parse_equiv_parse_time_clue :
    (∀ (s : String) (now : Interpreter.DateTime),
      parse s now = parse_time_clue s now false) ∧
    (∀ (s : String) (now : Interpreter.DateTime) (b : Bool) (e : Parser.ParseError),
      Parser.parse_time_clue_from_str s = .error e →
      parse_time_clue s now b = .error (.ParseError e)) ∧
    (∀ (s : String) (now : Interpreter.DateTime) (b : Bool) (tc : Parser.TimeClue)
        (e : Interpreter.EvaluationError),
      Parser.parse_time_clue_from_str s = .ok tc →
      Interpreter.evaluate_time_clue tc now b = .error e →
      parse_time_clue s now b = .error (.EvaluationError e)) ∧
    (∀ (s : String) (now : Interpreter.DateTime) (b : Bool) (tc : Parser.TimeClue)
        (d : Interpreter.DateTime),
      Parser.parse_time_clue_from_str s = .ok tc →
      Interpreter.evaluate_time_clue tc now b = .ok d →
      parse_time_clue s now b = .ok d) := by
  refine ⟨fun s now => rfl, ?_, ?_, ?_⟩ <;> intros <;>
    simp only [parse_time_clue, *]

/-- Witness for C9: a grammar mismatch surfaces as `ParseError`, and a
parsed clue that fails evaluation surfaces as `EvaluationError`. -/
theorem parse_equiv_parse_time_clue_witness :
    Parser.parse_time_clue_from_str ("@@") = .error .PestError ∧
    parse_time_clue ("@@") 0 true = .error (.ParseError .PestError) ∧
    Parser.parse_time_clue_from_str ("25:99") = .ok (.Time (25, 99, 0) none) ∧
    Interpreter.evaluate_time_clue (.Time (25, 99, 0) none) 0 false =
      .error (.InvalidTime 25 99 0) ∧
    parse_time_clue ("25:99") 0 false = .error (.EvaluationError (.InvalidTime 25 99 0)) :=
  ⟨rfl, parse_equiv_parse_time_clue.2.1 ("@@") 0 true .PestError rfl,
    rfl, rfl,
    parse_equiv_parse_time_clue.2.2.1 ("25:99") 0 false (.Time (25, 99, 0) none)
      (.InvalidTime 25 99 0) rfl rfl⟩

end Htp
